import Mathlib

/-!
Verification of the adaptive quiz engine of the
Mexico-Naturalization-Study-Tool repository.

The development shallowly embeds the core of `app.py` and
`weight_calculator.py`: the SQLite tables become lists of rows, float
arithmetic becomes exact rational arithmetic, and the calls to Python's
`random` module become explicit oracle parameters (a rational for
`random.random()` and natural-number indices for `random.choice` /
`random.choices`, which always return some member of their list).

Table model:
- `questions (id, chunk_number)` — the display-only text columns
  (question_text, correct_answer, notes, distractor1..8) are opaque
  payload never inspected by the engine and are omitted;
- `question_stats (question_id, times_answered, times_correct,
  success_rate, weight, is_mastered)`;
- `question_attempts (question_id, is_correct)` kept newest first, so
  consing a new attempt models `INSERT` followed by
  `ORDER BY attempt_timestamp DESC`;
- `user_progress (max_unlocked_chunk, questions_in_current_set)` — the
  singleton row with id 1.
-/

namespace MexicoQuiz

/-- `RECENT_ATTEMPTS_WINDOW = 5` from `weight_calculator.py`. -/
def RECENT_ATTEMPTS_WINDOW : Nat := 5

/-- `WEIGHT_INCREMENT = 0.1` from `app.py`. -/
def WEIGHT_INCREMENT : ℚ := 1/10

/-- A row of the `questions` table (text payload columns omitted). -/
structure Question where
  id : Nat
  chunk : Nat
deriving DecidableEq, Repr

/-- A row of the `question_stats` table (the `question_id` key is kept
outside, in the association list). -/
structure QStat where
  timesAnswered : Nat
  timesCorrect : Nat
  successRate : ℚ
  weight : ℚ
  isMastered : Bool
deriving DecidableEq, Repr

/-- The whole store: the four tables read and written by the engine. -/
structure DB where
  questions : List Question
  stats : List (Nat × QStat)
  attempts : List (Nat × Bool)
  maxUnlockedChunk : Nat
  questionsInCurrentSet : Nat
deriving DecidableEq, Repr

/-- The attempts recorded for one question, newest first
(`SELECT is_correct FROM question_attempts WHERE question_id = ?
ORDER BY attempt_timestamp DESC LIMIT ?`). -/
def recentAttempts (db : DB) (qid : Nat) (w : Nat) : List Bool :=
  ((db.attempts.filter (fun a => a.1 == qid)).map Prod.snd).take w

/-- `get_rolling_success_rate` from `weight_calculator.py`: the success
rate over the last `RECENT_ATTEMPTS_WINDOW` attempts, together with how
many attempts that window actually holds; `(0, 0)` when no attempt
exists. -/
def get_rolling_success_rate (db : DB) (qid : Nat) : ℚ × Nat :=
  let recent := recentAttempts db qid RECENT_ATTEMPTS_WINDOW
  if recent.isEmpty then (0, 0)
  else (((recent.countP (fun b => b) : Nat) : ℚ) / ((recent.length : Nat) : ℚ),
        recent.length)

/-- `is_question_mastered` from `app.py`: at least 3 attempts in the
rolling window and a rolling success rate of at least 0.8. -/
def is_question_mastered (db : DB) (qid : Nat) : Bool :=
  let res := get_rolling_success_rate db qid
  decide (3 ≤ res.2) && decide ((4 : ℚ)/5 ≤ res.1)

/-- The store right after the `INSERT INTO question_attempts` at the top
of `update_question_stats`. -/
def dbAfterAttempt (db : DB) (qid : Nat) (c : Bool) : DB :=
  { db with attempts := (qid, c) :: db.attempts }

/-- The mastery flag `update_question_stats` computes for the answered
question: the rolling-window predicate evaluated after the new attempt
has been inserted. -/
def freshMastery (db : DB) (qid : Nat) (c : Bool) : Bool :=
  is_question_mastered (dbAfterAttempt db qid c) qid

/-- Membership of `sid` in the subquery
`SELECT id FROM questions WHERE chunk_number <= max_unlocked_chunk AND id != qid`. -/
def inScopeSibling (db : DB) (qid sid : Nat) : Bool :=
  db.questions.any (fun q => q.id == sid && decide (q.chunk ≤ db.maxUnlockedChunk) && q.id != qid)

/-- Effect of the sibling `UPDATE question_stats SET weight = weight + 0.1 ...`
on one stats row: bump the row iff its question is an in-scope sibling and
its stored mastery flag equals the answered question's fresh flag `m`. -/
def siblingVal (db1 : DB) (qid : Nat) (m : Bool) (p : Nat × QStat) : QStat :=
  if inScopeSibling db1 qid p.1 && (p.2.isMastered == m) then
    { p.2 with weight := p.2.weight + WEIGHT_INCREMENT }
  else p.2

/-- Effect of the final `UPDATE question_stats SET ... WHERE question_id = ?`
on one stats row: rows keyed by the answered question get the new stats. -/
def answeredVal (qid : Nat) (ns : QStat) (p : Nat × QStat) : QStat :=
  if p.1 == qid then ns else p.2

/-- `update_question_stats` from `app.py`.  The source inserts the
attempt, reads the answered question's counters (a `TypeError` escapes
if no stats row exists, leaving the transaction uncommitted, hence
`none` with the caller's store unchanged), recomputes the mastery flag,
and then, on a correct answer, resets the answered weight to 0 and bumps
every same-category in-scope sibling by 0.1, while an incorrect answer
keeps the current weight.  The stats `SELECT` is written against
`db.stats`, which the attempt `INSERT` does not touch. -/
def update_question_stats (db : DB) (qid : Nat) (isCorrect : Bool) : Option DB :=
  let db1 : DB := dbAfterAttempt db qid isCorrect
  match db.stats.lookup qid with
  | none => none
  | some st =>
      let ta := st.timesAnswered + 1
      let tc := st.timesCorrect + (if isCorrect then 1 else 0)
      let lifetimeRate : ℚ := ((tc : Nat) : ℚ) / ((ta : Nat) : ℚ)
      let m : Bool := is_question_mastered db1 qid
      let stats1 : List (Nat × QStat) :=
        if isCorrect then db.stats.map (fun p => (p.1, siblingVal db1 qid m p))
        else db.stats
      let w : ℚ := if isCorrect then 0 else st.weight
      let ns : QStat := ⟨ta, tc, lifetimeRate, w, m⟩
      some { db1 with stats := stats1.map (fun p => (p.1, answeredVal qid ns p)) }

/-- The `/answer` route (`record_answer` in `app.py`): correctness is
`selected_answer == correct_answer`; statistics are updated through
`update_question_stats`.  When the latter fails, the exception reaches
the caller as an error response and the uncommitted transaction leaves
the store unchanged, modeled by `(db, none)`. -/
def record_answer (db : DB) (qid : Nat) (selected correctAnswer : String) :
    DB × Option Bool :=
  let isCorrect := selected == correctAnswer
  match update_question_stats db qid isCorrect with
  | some db1 => (db1, some isCorrect)
  | none => (db, none)

/-- The join
`SELECT q.id, qs.success_rate, qs.times_answered FROM questions q JOIN
question_stats qs ON q.id = qs.question_id WHERE q.chunk_number <= max`
used by `get_current_question_set`, keyed by question id. -/
def activeRows (db : DB) : List (Nat × QStat) :=
  (db.questions.filter (fun q => decide (q.chunk ≤ db.maxUnlockedChunk))).flatMap
    (fun q => (db.stats.filter (fun p => p.1 == q.id)).map (fun p => (q.id, p.2)))

/-- The per-row qualification test of `get_current_question_set`:
`times_answered >= 3` and rolling success rate `>= 0.8`. -/
def qualifies (db : DB) (row : Nat × QStat) : Bool :=
  decide (3 ≤ row.2.timesAnswered) &&
    decide ((4 : ℚ)/5 ≤ (get_rolling_success_rate db row.1).1)

/-- `SELECT MAX(chunk_number) FROM questions`, with the source's
`or 1` fallback for an empty or zero maximum. -/
def max_available_chunk (db : DB) : Nat :=
  let m := (db.questions.map (fun q => q.chunk)).foldr max 0
  if m = 0 then 1 else m

/-- The progress numbers `get_current_question_set` returns. -/
structure PoolInfo where
  maxChunk : Nat
  setSize : Nat
  avgSuccess : ℚ
  answeredCount : Nat
  totalInSet : Nat
  masteredCount : Nat
deriving Repr

/-- `get_current_question_set` from `app.py`: computes the display
statistics over the in-scope rows and, when every in-scope row
qualifies and a higher chunk exists, unlocks the next chunk, growing
the active set size by 10 up to the constant 147. -/
def get_current_question_set (db : DB) : DB × PoolInfo :=
  let maxChunk := db.maxUnlockedChunk
  let setSize := db.questionsInCurrentSet
  let rows := activeRows db
  let total := rows.length
  let qualified := (rows.countP (fun r => qualifies db r))
  let answeredCount := rows.countP (fun r => decide (3 ≤ r.2.timesAnswered))
  let avgSuccess : ℚ :=
    ((rows.filter (fun r => decide (3 ≤ r.2.timesAnswered))).map
      (fun r => r.2.successRate)).sum / ((max answeredCount 1 : Nat) : ℚ)
  let info : PoolInfo := ⟨maxChunk, setSize, avgSuccess, answeredCount, total, qualified⟩
  if qualified = total then
    if maxChunk < max_available_chunk db then
      let newMax := maxChunk + 1
      let newSize := min (setSize + 10) 147
      ({ db with maxUnlockedChunk := newMax, questionsInCurrentSet := newSize },
       { info with maxChunk := newMax, setSize := newSize })
    else (db, info)
  else (db, info)

/-- A row of the selection pool: question id and current weight (the
text payload columns of the join are omitted). -/
structure QRow where
  id : Nat
  weight : ℚ
deriving DecidableEq, Repr

/-- The join
`SELECT q.id, ..., qs.weight FROM questions q JOIN question_stats qs ON
q.id = qs.question_id WHERE q.chunk_number <= max` of
`get_weighted_question`. -/
def selectorPool (db : DB) : List QRow :=
  (db.questions.filter (fun q => decide (q.chunk ≤ db.maxUnlockedChunk))).flatMap
    (fun q => (db.stats.filter (fun p => p.1 == q.id)).map (fun p => ⟨q.id, p.2.weight⟩))

/-- Model of `random.choice(l)`: some member of the non-empty list,
selected by the oracle index `i`. -/
def pick (l : List QRow) (i : Nat) : Option QRow :=
  l[i % l.length]?

/-- Model of `random.choices(l, weights=...)`: raises `ValueError`
(modeled `none`) unless the weights sum to a positive total, and
otherwise returns some member of the list. -/
def choicesWeighted (l : List QRow) (i : Nat) : Option QRow :=
  if (l.map (fun q => q.weight)).sum ≤ 0 then none
  else l[i % l.length]?

/-- `get_unmastered_question` from `app.py`: restrict the available rows
to the live-unmastered ones; uniform choice when every weight sums to
zero, weighted sampling otherwise. -/
def get_unmastered_question (db : DB) (available : List QRow) (i : Nat) :
    Option QRow :=
  let unmastered := available.filter (fun q => !(is_question_mastered db q.id))
  if unmastered.isEmpty then none
  else if (unmastered.map (fun q => q.weight)).sum = 0 then pick unmastered i
  else choicesWeighted unmastered i

/-- `get_mastered_question` from `app.py`: the mirror image for the
live-mastered rows. -/
def get_mastered_question (db : DB) (available : List QRow) (i : Nat) :
    Option QRow :=
  let mastered := available.filter (fun q => is_question_mastered db q.id)
  if mastered.isEmpty then none
  else if (mastered.map (fun q => q.weight)).sum = 0 then pick mastered i
  else choicesWeighted mastered i

/-- `get_weighted_question` from `app.py`: runs the ratchet check of
`get_current_question_set`, joins the in-scope rows, unconditionally
filters out the excluded id, and applies the 70/30 unmastered/mastered
strategy with fallback to the other bucket.  The oracle `r` models
`random.random()`; `iU` and `iM` model the draws inside the two bucket
selectors. -/
def get_weighted_question (db : DB) (exclude : Option Nat) (r : ℚ)
    (iU iM : Nat) : DB × Option QRow :=
  let db1 := (get_current_question_set db).1
  let questions0 := selectorPool db1
  let questions := match exclude with
    | some e => questions0.filter (fun q => q.id != e)
    | none => questions0
  if questions.isEmpty then (db1, none)
  else if r < 7/10 then
    match get_unmastered_question db1 questions iU with
    | some s => (db1, some s)
    | none => (db1, get_mastered_question db1 questions iM)
  else
    match get_mastered_question db1 questions iM with
    | some s => (db1, some s)
    | none => (db1, get_unmastered_question db1 questions iU)

/-! ## Helper lemmas about the update -/

/-- Looking a key up after a key-preserving row map applies the map to
the first row holding that key. -/
theorem lookup_map_row (f : Nat × QStat → QStat) (l : List (Nat × QStat)) (k : Nat) :
    (l.map (fun p => (p.1, f p))).lookup k = (l.lookup k).map (fun v => f (k, v)) := by
  induction l with
  | nil => rfl
  | cons a t ih =>
    by_cases hk : k = a.1
    · subst hk
      simp [List.lookup]
    · have hb : (k == a.1) = false := by simpa using hk
      simp [List.lookup, hb, ih]

/-- The stats row `update_question_stats` writes for the answered
question on a correct answer. -/
def correctStat (db : DB) (qid : Nat) (st : QStat) : QStat :=
  ⟨st.timesAnswered + 1, st.timesCorrect + 1,
   ((st.timesCorrect + 1 : Nat) : ℚ) / ((st.timesAnswered + 1 : Nat) : ℚ),
   0, freshMastery db qid true⟩

/-- The stats row `update_question_stats` writes for the answered
question on an incorrect answer. -/
def incorrectStat (db : DB) (qid : Nat) (st : QStat) : QStat :=
  ⟨st.timesAnswered + 1, st.timesCorrect,
   ((st.timesCorrect : Nat) : ℚ) / ((st.timesAnswered + 1 : Nat) : ℚ),
   st.weight, freshMastery db qid false⟩

/-- Unfolding of `update_question_stats` on a correct answer: the
attempt is appended, every row passes through the sibling bump and then
through the answered-row overwrite. -/
theorem update_correct_eq (db : DB) (qid : Nat) (st : QStat)
    (h : db.stats.lookup qid = some st) :
    update_question_stats db qid true = some
      { dbAfterAttempt db qid true with
        stats := (db.stats.map (fun p =>
            (p.1, siblingVal (dbAfterAttempt db qid true) qid (freshMastery db qid true) p))).map
          (fun p => (p.1, answeredVal qid (correctStat db qid st) p)) } := by
  unfold update_question_stats
  rw [h]
  rfl

/-- Unfolding of `update_question_stats` on an incorrect answer: the
attempt is appended and only the answered row is overwritten, with its
weight kept. -/
theorem update_incorrect_eq (db : DB) (qid : Nat) (st : QStat)
    (h : db.stats.lookup qid = some st) :
    update_question_stats db qid false = some
      { dbAfterAttempt db qid false with
        stats := db.stats.map (fun p => (p.1, answeredVal qid (incorrectStat db qid st) p)) } := by
  unfold update_question_stats
  rw [h]
  rfl

/-- Row-level description of the stats table after a correct answer. -/
theorem update_correct_lookup (db : DB) (qid : Nat) (st : QStat)
    (h : db.stats.lookup qid = some st) (sid : Nat) :
    ∀ db', update_question_stats db qid true = some db' →
      db'.stats.lookup sid = (db.stats.lookup sid).map (fun v =>
        answeredVal qid (correctStat db qid st)
          (sid, siblingVal (dbAfterAttempt db qid true) qid (freshMastery db qid true) (sid, v))) := by
  intro db' hdb'
  rw [update_correct_eq db qid st h] at hdb'
  cases hdb'
  rw [lookup_map_row, lookup_map_row, Option.map_map]
  rfl

/-- Row-level description of the stats table after an incorrect answer. -/
theorem update_incorrect_lookup (db : DB) (qid : Nat) (st : QStat)
    (h : db.stats.lookup qid = some st) (sid : Nat) :
    ∀ db', update_question_stats db qid false = some db' →
      db'.stats.lookup sid = (db.stats.lookup sid).map (fun v =>
        answeredVal qid (incorrectStat db qid st) (sid, v)) := by
  intro db' hdb'
  rw [update_incorrect_eq db qid st h] at hdb'
  cases hdb'
  rw [lookup_map_row]

/-! ## Concrete stores used as witnesses -/

/-- A store holding one question whose rolling window shows 5 attempts
with 4 successes. -/
def exDB2 : DB :=
  { questions := [⟨1, 1⟩], stats := [(1, ⟨5, 4, 4/5, 25, false⟩)],
    attempts := [(1, true), (1, true), (1, true), (1, true), (1, false)],
    maxUnlockedChunk := 1, questionsInCurrentSet := 10 }

/-- A store holding one question with 7 lifetime attempts, the newest 5
correct and the oldest 2 wrong. -/
def exDB3 : DB :=
  { questions := [⟨1, 1⟩], stats := [(1, ⟨7, 5, 5/7, 25, false⟩)],
    attempts := [(1, true), (1, true), (1, true), (1, true), (1, true),
                 (1, false), (1, false)],
    maxUnlockedChunk := 1, questionsInCurrentSet := 10 }

/-- A store whose only statistics row belongs to question 1. -/
def exDB8 : DB :=
  { questions := [⟨1, 1⟩], stats := [(1, ⟨0, 0, 0, 25, false⟩)],
    attempts := [], maxUnlockedChunk := 1, questionsInCurrentSet := 10 }

/-! ## Claims -/

/-- Claim C2: a question is mastered exactly when its rolling window
holds at least 3 attempts and its rolling success rate is at least 0.8;
in particular a 2-attempt window is never mastered, a 5-attempt window
at exactly rate 4/5 is mastered, a 5-attempt window with any rate below
4/5 is not, and a question with no attempts has rate (0, 0) and is not
mastered. -/
theorem c2_mastery_characterization (db : DB) (qid : Nat) :
    (is_question_mastered db qid = true ↔
      3 ≤ (get_rolling_success_rate db qid).2 ∧
        (4 : ℚ)/5 ≤ (get_rolling_success_rate db qid).1) ∧
    ((get_rolling_success_rate db qid).2 = 2 → is_question_mastered db qid = false) ∧
    ((get_rolling_success_rate db qid).2 = 5 →
      (get_rolling_success_rate db qid).1 = 4/5 → is_question_mastered db qid = true) ∧
    ((get_rolling_success_rate db qid).2 = 5 →
      (get_rolling_success_rate db qid).1 < 4/5 → is_question_mastered db qid = false) ∧
    (recentAttempts db qid RECENT_ATTEMPTS_WINDOW = [] →
      get_rolling_success_rate db qid = (0, 0) ∧ is_question_mastered db qid = false) := by
  have hiff : is_question_mastered db qid = true ↔
      3 ≤ (get_rolling_success_rate db qid).2 ∧
        (4 : ℚ)/5 ≤ (get_rolling_success_rate db qid).1 := by
    simp [is_question_mastered]
  refine ⟨hiff, ?_, ?_, ?_, ?_⟩
  · intro h2
    rw [Bool.eq_false_iff]
    intro htrue
    have h3 := (hiff.mp htrue).1
    omega
  · intro h5 hr
    exact hiff.mpr ⟨by omega, le_of_eq hr.symm⟩
  · intro h5 hr
    rw [Bool.eq_false_iff]
    intro htrue
    exact absurd (hiff.mp htrue).2 (not_le.mpr hr)
  · intro hempty
    have hrate : get_rolling_success_rate db qid = (0, 0) := by
      unfold get_rolling_success_rate
      rw [show recentAttempts db qid RECENT_ATTEMPTS_WINDOW = [] from hempty]
      rfl
    refine ⟨hrate, ?_⟩
    rw [Bool.eq_false_iff]
    intro htrue
    have h3 := (hiff.mp htrue).1
    rw [hrate] at h3
    simp at h3

/-- Witness for C2 at a concrete store: a 5-attempt window with 4
successes (rate exactly 4/5) is mastered. -/
theorem c2_mastery_witness : is_question_mastered exDB2 1 = true :=
  (c2_mastery_characterization exDB2 1).2.2.1 (by rfl)
    (by norm_num [get_rolling_success_rate, recentAttempts, exDB2,
      RECENT_ATTEMPTS_WINDOW])

/-- Claim C3: the rolling rate is computed over at most the last 5
attempts (newest first): it is `(0, 0)` when no attempt exists, and
otherwise returns the fraction of successes among the newest
`min lifetime 5` attempts together with that count; when the newest 5
attempts are all correct the rate is 1 regardless of older history. -/
theorem c3_rolling_window (db : DB) (qid : Nat) :
    (recentAttempts db qid RECENT_ATTEMPTS_WINDOW = [] →
       get_rolling_success_rate db qid = (0, 0)) ∧
    ((db.attempts.filter (fun a => a.1 == qid)).map Prod.snd ≠ [] →
       get_rolling_success_rate db qid =
         ((((((db.attempts.filter (fun a => a.1 == qid)).map Prod.snd).take 5).countP (fun b => b) : Nat) : ℚ) /
            ((min ((db.attempts.filter (fun a => a.1 == qid)).map Prod.snd).length 5 : Nat) : ℚ),
          min ((db.attempts.filter (fun a => a.1 == qid)).map Prod.snd).length 5)) ∧
    ((get_rolling_success_rate db qid).2 ≤ 5) ∧
    ((((db.attempts.filter (fun a => a.1 == qid)).map Prod.snd).take 5 = List.replicate 5 true) →
       (get_rolling_success_rate db qid).1 = 1) := by
  set l := (db.attempts.filter (fun a => a.1 == qid)).map Prod.snd with hl
  have hrec : recentAttempts db qid RECENT_ATTEMPTS_WINDOW = l.take 5 := rfl
  have hunf : get_rolling_success_rate db qid =
      if (l.take 5).isEmpty then ((0 : ℚ), 0)
      else ((((l.take 5).countP (fun b => b) : Nat) : ℚ) / (((l.take 5).length : Nat) : ℚ),
            (l.take 5).length) := by
    unfold get_rolling_success_rate
    rw [hrec]
  refine ⟨?_, ?_, ?_, ?_⟩
  · intro hempty
    rw [hrec] at hempty
    rw [hunf, hempty]
    rfl
  · intro hne
    have htake : (l.take 5).isEmpty = false := by
      simp [List.isEmpty_iff, List.take_eq_nil_iff, hne]
    rw [hunf, htake, List.length_take, Nat.min_comm]
    simp
  · by_cases he : (l.take 5).isEmpty
    · rw [hunf, if_pos he]
      simp
    · rw [hunf, if_neg he, List.length_take]
      simp [Nat.min_le_left]
  · intro hrep
    have htake : (l.take 5).isEmpty = false := by
      rw [hrep]
      rfl
    rw [hunf, htake, hrep]
    rw [show (List.replicate 5 true).countP (fun b => b) = 5 from rfl]
    norm_num

/-- Witness for C3 at a concrete store with 7 attempts, newest 5
correct and oldest 2 wrong: the rolling rate is exactly 1. -/
theorem c3_rolling_witness : (get_rolling_success_rate exDB3 1).1 = 1 :=
  (c3_rolling_window exDB3 1).2.2.2 (by rfl)

/-- Claim C8: recording an outcome for an id with no statistics row
fails with a not-found error and leaves the store unchanged; no
statistics are created for the unknown id. -/
theorem c8_unknown_id (db : DB) (qid : Nat) (selected correctAnswer : String)
    (h : db.stats.lookup qid = none) :
    record_answer db qid selected correctAnswer = (db, none) ∧
    (∀ c : Bool, update_question_stats db qid c = none) := by
  have hu : ∀ c : Bool, update_question_stats db qid c = none := by
    intro c
    unfold update_question_stats
    rw [h]
  refine ⟨?_, hu⟩
  simp only [record_answer, hu]

/-- Witness for C8 at a concrete store: id 99 has no statistics row. -/
theorem c8_unknown_id_witness :
    record_answer exDB8 99 "a" "b" = (exDB8, none) :=
  (c8_unknown_id exDB8 99 "a" "b" (by rfl)).1

/-- Inserting an attempt does not change which questions are in-scope
siblings. -/
theorem inScope_after (db : DB) (qid c sid : Nat) (b : Bool) :
    inScopeSibling (dbAfterAttempt db qid b) c sid = inScopeSibling db c sid := rfl

/-- After a correct answer the answered question's stored weight is 0. -/
theorem answered_weight_correct (db : DB) (qid : Nat) (st : QStat)
    (hq : db.stats.lookup qid = some st) :
    ∀ db', update_question_stats db qid true = some db' →
      (db'.stats.lookup qid).map QStat.weight = some 0 := by
  intro db' hdb'
  rw [update_correct_lookup db qid st hq qid db' hdb', hq]
  simp [answeredVal, correctStat]

/-- After an incorrect answer the answered question's stored weight is
its previous weight. -/
theorem answered_weight_incorrect (db : DB) (qid : Nat) (st : QStat)
    (hq : db.stats.lookup qid = some st) :
    ∀ db', update_question_stats db qid false = some db' →
      (db'.stats.lookup qid).map QStat.weight = some st.weight := by
  intro db' hdb'
  rw [update_incorrect_lookup db qid st hq qid db' hdb', hq]
  simp [answeredVal, incorrectStat]

/-- After a correct answer, the row of a sibling question carries
exactly the result of the sibling bump. -/
theorem sibling_row_correct (db : DB) (qid sid : Nat) (st sst : QStat)
    (hq : db.stats.lookup qid = some st) (hs : db.stats.lookup sid = some sst)
    (hne : sid ≠ qid) :
    ∀ db', update_question_stats db qid true = some db' →
      db'.stats.lookup sid =
        some (siblingVal (dbAfterAttempt db qid true) qid (freshMastery db qid true) (sid, sst)) := by
  intro db' hdb'
  rw [update_correct_lookup db qid st hq sid db' hdb', hs]
  have hb : (sid == qid) = false := by simpa using hne
  simp [answeredVal, hb]

/-- An incorrect answer changes no stored weight. -/
theorem weights_unchanged_incorrect (db : DB) (qid : Nat) (st : QStat)
    (hq : db.stats.lookup qid = some st) :
    ∀ db', update_question_stats db qid false = some db' →
      ∀ sid, (db'.stats.lookup sid).map QStat.weight =
        (db.stats.lookup sid).map QStat.weight := by
  intro db' hdb' sid
  rw [update_incorrect_lookup db qid st hq sid db' hdb']
  cases hv : db.stats.lookup sid with
  | none => rfl
  | some v =>
    simp only [Option.map_some']
    by_cases hsq : sid = qid
    · subst hsq
      rw [hq] at hv
      cases hv
      simp [answeredVal, incorrectStat]
    · have hb : (sid == qid) = false := by simpa using hsq
      simp [answeredVal, hb]

/-- A store with two unmastered chunk-1 questions; question 2 carries
weight 3/2. -/
def exDB1 : DB :=
  { questions := [⟨1, 1⟩, ⟨2, 1⟩],
    stats := [(1, ⟨0, 0, 0, 25, false⟩), (2, ⟨0, 0, 0, 3/2, false⟩)],
    attempts := [], maxUnlockedChunk := 1, questionsInCurrentSet := 10 }

/-- A store whose question 1 is mastered (5 recent attempts, all
correct) with current weight 2. -/
def exDB9 : DB :=
  { questions := [⟨1, 1⟩, ⟨2, 1⟩],
    stats := [(1, ⟨5, 5, 1, 2, true⟩), (2, ⟨0, 0, 0, 25, false⟩)],
    attempts := [(1, true), (1, true), (1, true), (1, true), (1, true)],
    maxUnlockedChunk := 1, questionsInCurrentSet := 10 }

/-- A store where the cached flag of question 2 has drifted: its stats
row stores `is_mastered = 0`, while its rolling window (5 correct
attempts) makes the live predicate true. -/
def exDB10 : DB :=
  { questions := [⟨1, 1⟩, ⟨2, 1⟩],
    stats := [(1, ⟨0, 0, 0, 25, false⟩), (2, ⟨0, 0, 0, 2, false⟩)],
    attempts := [(2, true), (2, true), (2, true), (2, true), (2, true)],
    maxUnlockedChunk := 1, questionsInCurrentSet := 10 }

/-- Claim C1: under the linear Policy B of `update_question_stats`, a
correct answer stores weight exactly 0 for the answered question and
adds exactly 0.1 to every other same-category question (same stored
mastery bucket as the answered question's fresh flag, chunk at most
`max_unlocked_chunk`), while an incorrect answer changes no stored
weight. -/
theorem c1_policyB_linear_update (db : DB) (qid : Nat) (st : QStat)
    (hq : db.stats.lookup qid = some st) :
    (∀ db', update_question_stats db qid true = some db' →
      ((db'.stats.lookup qid).map QStat.weight = some 0 ∧
       ∀ sid sst, db.stats.lookup sid = some sst → sid ≠ qid →
         inScopeSibling db qid sid = true →
         sst.isMastered = freshMastery db qid true →
         (db'.stats.lookup sid).map QStat.weight = some (sst.weight + WEIGHT_INCREMENT))) ∧
    (∀ db', update_question_stats db qid false = some db' →
       ∀ sid, (db'.stats.lookup sid).map QStat.weight =
         (db.stats.lookup sid).map QStat.weight) := by
  refine ⟨?_, weights_unchanged_incorrect db qid st hq⟩
  intro db' hdb'
  refine ⟨answered_weight_correct db qid st hq db' hdb', ?_⟩
  intro sid sst hs hne hscope hflag
  rw [sibling_row_correct db qid sid st sst hq hs hne db' hdb']
  rw [show siblingVal (dbAfterAttempt db qid true) qid (freshMastery db qid true) (sid, sst)
      = { sst with weight := sst.weight + WEIGHT_INCREMENT } from ?_]
  · rfl
  · unfold siblingVal
    rw [if_pos]
    rw [inScope_after, hscope]
    simp [hflag]

/-- Witness for C1 at a concrete store: answering question 1 correctly
zeroes its weight and bumps its same-bucket sibling from 3/2 to
3/2 + 0.1. -/
theorem c1_policyB_witness :
    ∃ db', update_question_stats exDB1 1 true = some db' ∧
      (db'.stats.lookup 1).map QStat.weight = some 0 ∧
      (db'.stats.lookup 2).map QStat.weight = some (3/2 + WEIGHT_INCREMENT) := by
  have hex := update_correct_eq exDB1 1 ⟨0, 0, 0, 25, false⟩ rfl
  obtain ⟨hcorrect, _⟩ := c1_policyB_linear_update exDB1 1 ⟨0, 0, 0, 25, false⟩ rfl
  obtain ⟨h0, hsib⟩ := hcorrect _ hex
  exact ⟨_, hex, h0, hsib 2 ⟨0, 0, 0, 3/2, false⟩ rfl (by decide) (by rfl) (by rfl)⟩

/-- Claim C9 is refuted by the code: question 1 of `exDB9` is mastered
before (and after) a correct answer, yet `update_question_stats` stores
weight 0 for it, not the claimed 1.0. -/
theorem c9_counterexample :
    is_question_mastered exDB9 1 = true ∧
    (∃ db', update_question_stats exDB9 1 true = some db' ∧
      (db'.stats.lookup 1).map QStat.weight = some 0) ∧ (0 : ℚ) ≠ 1 := by
  refine ⟨?_, ⟨_, update_correct_eq exDB9 1 ⟨5, 5, 1, 2, true⟩ rfl, ?_⟩, by norm_num⟩
  · norm_num [is_question_mastered, get_rolling_success_rate, recentAttempts,
      exDB9, RECENT_ATTEMPTS_WINDOW]
  · exact answered_weight_correct exDB9 1 ⟨5, 5, 1, 2, true⟩ rfl _
      (update_correct_eq exDB9 1 ⟨5, 5, 1, 2, true⟩ rfl)

/-- Claim C9 (amended): a mastered question answered correctly has its
weight reset to 0.0 exactly like any other question (the code has no
1.0 reset for mastered items); a mastered question answered incorrectly
has its weight held unchanged. -/
theorem c9_mastered_weight_update (db : DB) (qid : Nat) (st : QStat)
    (hq : db.stats.lookup qid = some st)
    (hm : is_question_mastered db qid = true) :
    (∀ db', update_question_stats db qid true = some db' →
       (db'.stats.lookup qid).map QStat.weight = some 0) ∧
    (∀ db', update_question_stats db qid false = some db' →
       (db'.stats.lookup qid).map QStat.weight = some st.weight) :=
  ⟨answered_weight_correct db qid st hq, answered_weight_incorrect db qid st hq⟩

/-- Witness for C9 at a concrete store: the mastered question 1 of
`exDB9` gets weight 0 after a correct answer and keeps weight 2 after an
incorrect one. -/
theorem c9_mastered_weight_witness :
    (∃ db', update_question_stats exDB9 1 true = some db' ∧
       (db'.stats.lookup 1).map QStat.weight = some 0) ∧
    (∃ db', update_question_stats exDB9 1 false = some db' ∧
       (db'.stats.lookup 1).map QStat.weight = some 2) := by
  have hm : is_question_mastered exDB9 1 = true := by
    norm_num [is_question_mastered, get_rolling_success_rate, recentAttempts,
      exDB9, RECENT_ATTEMPTS_WINDOW]
  obtain ⟨h1, h2⟩ := c9_mastered_weight_update exDB9 1 ⟨5, 5, 1, 2, true⟩ rfl hm
  exact ⟨⟨_, update_correct_eq exDB9 1 _ rfl, h1 _ (update_correct_eq exDB9 1 _ rfl)⟩,
         ⟨_, update_incorrect_eq exDB9 1 _ rfl, h2 _ (update_incorrect_eq exDB9 1 _ rfl)⟩⟩

/-- Claim C10: on a correct answer, an in-scope sibling is bumped by
0.1 exactly when its stats row's cached `is_mastered` flag equals the
answered question's mastery flag freshly recomputed after the new
attempt was inserted — the sibling's own live rolling-window mastery is
irrelevant. -/
theorem c10_cached_mastery_bucket (db : DB) (qid sid : Nat) (st sst : QStat)
    (hq : db.stats.lookup qid = some st) (hs : db.stats.lookup sid = some sst)
    (hne : sid ≠ qid) (hscope : inScopeSibling db qid sid = true) :
    ∀ db', update_question_stats db qid true = some db' →
      (db'.stats.lookup sid).map QStat.weight =
        some (if sst.isMastered = freshMastery db qid true
              then sst.weight + WEIGHT_INCREMENT else sst.weight) := by
  intro db' hdb'
  rw [sibling_row_correct db qid sid st sst hq hs hne db' hdb']
  unfold siblingVal
  rw [inScope_after, hscope]
  by_cases hflag : sst.isMastered = freshMastery db qid true
  · simp [hflag]
  · have hb : (sst.isMastered == freshMastery db qid true) = false := by
      simpa using hflag
    simp [hb, hflag]

/-- Witness for C10 at a concrete drifted store: the sibling's cached
flag (false) matches the answered question's fresh flag, so the sibling
is bumped from 2 to 2 + 0.1 even though its live rolling-window mastery
is true. -/
theorem c10_cached_mastery_witness :
    is_question_mastered exDB10 2 = true ∧
    (exDB10.stats.lookup 2).map QStat.isMastered = some false ∧
    (∃ db', update_question_stats exDB10 1 true = some db' ∧
      (db'.stats.lookup 2).map QStat.weight = some (2 + WEIGHT_INCREMENT)) := by
  refine ⟨?_, rfl, ?_⟩
  · norm_num [is_question_mastered, get_rolling_success_rate, recentAttempts,
      exDB10, RECENT_ATTEMPTS_WINDOW]
  · have hex := update_correct_eq exDB10 1 ⟨0, 0, 0, 25, false⟩ rfl
    have h := c10_cached_mastery_bucket exDB10 1 2 ⟨0, 0, 0, 25, false⟩
      ⟨0, 0, 0, 2, false⟩ rfl rfl (by decide) (by rfl) _ hex
    rw [show freshMastery exDB10 1 true = false from rfl] at h
    rw [if_pos rfl] at h
    exact ⟨_, hex, h⟩

/-! ## ProgressTracker: the chunk-unlock ratchet -/

/-- Number of attempts recorded for a question. -/
def attemptCount (db : DB) (qid : Nat) : Nat :=
  (db.attempts.filter (fun a => a.1 == qid)).length

/-- The store invariant maintained by normal operation: every stats
row's lifetime counter agrees with the number of logged attempts
(`update_question_stats` increments the counter exactly when it inserts
an attempt, and import initializes both to zero). -/
def statsConsistent (db : DB) : Prop :=
  ∀ p ∈ db.stats, p.2.timesAnswered = attemptCount db p.1

/-- The rolling sample count is the attempt count clipped to the
window. -/
theorem rolling_count (db : DB) (qid : Nat) :
    (get_rolling_success_rate db qid).2 = min 5 (attemptCount db qid) := by
  simp only [get_rolling_success_rate]
  by_cases he : (recentAttempts db qid RECENT_ATTEMPTS_WINDOW).isEmpty
  · rw [if_pos he]
    have hnil : ((db.attempts.filter (fun a => a.1 == qid)).map Prod.snd).take 5 = [] := by
      have : recentAttempts db qid RECENT_ATTEMPTS_WINDOW = [] := by
        simpa [List.isEmpty_iff] using he
      exact this
    rw [List.take_eq_nil_iff] at hnil
    have hc : attemptCount db qid = 0 := by
      rcases hnil with h5 | hmap
      · omega
      · unfold attemptCount
        rw [← List.length_map (f := Prod.snd), hmap]
        rfl
    simp [hc]
  · rw [if_neg he]
    show (recentAttempts db qid RECENT_ATTEMPTS_WINDOW).length = _
    unfold recentAttempts attemptCount
    rw [List.length_take, List.length_map, RECENT_ATTEMPTS_WINDOW]

/-- Every joined in-scope row is a stats row. -/
theorem activeRows_sub (db : DB) : ∀ row ∈ activeRows db, row ∈ db.stats := by
  intro row hrow
  unfold activeRows at hrow
  rw [List.mem_flatMap] at hrow
  obtain ⟨q, hq, hrow⟩ := hrow
  rw [List.mem_map] at hrow
  obtain ⟨p, hp, rfl⟩ := hrow
  rw [List.mem_filter] at hp
  have hpq : p.1 = q.id := by simpa using hp.2
  rw [← hpq]
  simpa using hp.1

/-- Under the counter invariant, the per-row qualification test of
`get_current_question_set` coincides with the live mastery predicate. -/
theorem qualifies_eq_mastered (db : DB) (hcons : statsConsistent db)
    (row : Nat × QStat) (hrow : row ∈ db.stats) :
    qualifies db row = is_question_mastered db row.1 := by
  have hta : row.2.timesAnswered = attemptCount db row.1 := hcons row hrow
  simp only [qualifies, is_question_mastered]
  rw [rolling_count, hta]
  congr 1
  rw [decide_eq_decide]
  omega

/-- The unlock condition counts every in-scope row as qualified exactly
when every in-scope row is mastered. -/
theorem qualified_iff_all_mastered (db : DB) (hcons : statsConsistent db) :
    ((activeRows db).countP (fun r => qualifies db r) = (activeRows db).length ↔
      ∀ row ∈ activeRows db, is_question_mastered db row.1 = true) := by
  rw [List.countP_eq_length]
  constructor <;> intro h row hrow
  · rw [← qualifies_eq_mastered db hcons row (activeRows_sub db row hrow)]
    exact h row hrow
  · rw [qualifies_eq_mastered db hcons row (activeRows_sub db row hrow)]
    exact h row hrow

/-- Claim C7 (amended): on a consistent store, the chunk unlock fires
exactly when every in-scope joined row is mastered and a higher chunk
exists; when it fires, `max_unlocked_chunk` grows by exactly 1 and the
active set size becomes `min (old + 10) 147` — the cap is the constant
147, not the store's overall item count; when it does not fire the
store is unchanged. -/
theorem c7_chunk_unlock (db : DB) (hcons : statsConsistent db) :
    (((∀ row ∈ activeRows db, is_question_mastered db row.1 = true) ∧
        db.maxUnlockedChunk < max_available_chunk db) ↔
      (get_current_question_set db).1.maxUnlockedChunk = db.maxUnlockedChunk + 1) ∧
    ((get_current_question_set db).1.maxUnlockedChunk = db.maxUnlockedChunk + 1 →
      (get_current_question_set db).1.questionsInCurrentSet =
        min (db.questionsInCurrentSet + 10) 147) ∧
    ((get_current_question_set db).1.maxUnlockedChunk ≠ db.maxUnlockedChunk + 1 →
      (get_current_question_set db).1 = db) := by
  have hq := qualified_iff_all_mastered db hcons
  by_cases h1 : (activeRows db).countP (fun r => qualifies db r) = (activeRows db).length
  · by_cases h2 : db.maxUnlockedChunk < max_available_chunk db
    · have hres : (get_current_question_set db).1 =
          { db with maxUnlockedChunk := db.maxUnlockedChunk + 1,
                    questionsInCurrentSet := min (db.questionsInCurrentSet + 10) 147 } := by
        simp only [get_current_question_set]
        rw [if_pos h1, if_pos h2]
      rw [hres]
      refine ⟨iff_of_true ⟨hq.mp h1, h2⟩ rfl, fun _ => rfl, fun hne => absurd rfl hne⟩
    · have hres : (get_current_question_set db).1 = db := by
        simp only [get_current_question_set]
        rw [if_pos h1, if_neg h2]
      rw [hres]
      exact ⟨iff_of_false (fun hl => h2 hl.2) (by omega), fun heq => absurd heq (by omega),
        fun _ => rfl⟩
  · have hres : (get_current_question_set db).1 = db := by
      simp only [get_current_question_set]
      rw [if_neg h1]
    rw [hres]
    exact ⟨iff_of_false (fun hl => h1 (hq.mpr hl.1)) (by omega),
      fun heq => absurd heq (by omega), fun _ => rfl⟩

/-- A consistent store with the single chunk-1 question mastered and a
chunk-2 question waiting; 2 items overall. -/
def exDB7 : DB :=
  { questions := [⟨1, 1⟩, ⟨2, 2⟩],
    stats := [(1, ⟨3, 3, 1, 0, true⟩), (2, ⟨0, 0, 0, 25, false⟩)],
    attempts := [(1, true), (1, true), (1, true)],
    maxUnlockedChunk := 1, questionsInCurrentSet := 10 }

/-- Witness for C7 at `exDB7`: the unlock fires, the chunk ceiling goes
from 1 to 2 and the set size from 10 to 20. -/
theorem c7_chunk_unlock_witness :
    statsConsistent exDB7 ∧
    (get_current_question_set exDB7).1.maxUnlockedChunk = 2 ∧
    (get_current_question_set exDB7).1.questionsInCurrentSet = 20 := by
  have hcons : statsConsistent exDB7 := by
    unfold statsConsistent attemptCount
    decide
  obtain ⟨hiff, hsize, -⟩ := c7_chunk_unlock exDB7 hcons
  have hall : ∀ row ∈ activeRows exDB7, is_question_mastered exDB7 row.1 = true := by
    intro row hrow
    rw [show activeRows exDB7 = [(1, ⟨3, 3, 1, 0, true⟩)] from rfl] at hrow
    rw [List.mem_singleton] at hrow
    subst hrow
    norm_num [is_question_mastered, get_rolling_success_rate, recentAttempts,
      exDB7, RECENT_ATTEMPTS_WINDOW]
  have hmax := hiff.mp ⟨hall, by decide⟩
  exact ⟨hcons, hmax, hsize hmax⟩

/-- Claim C7 as stated is refuted on the size cap: at `exDB7` the unlock
fires and sets the active set size to 20, which exceeds the overall
item count 2 — the code caps at the constant 147, not at the item
count. -/
theorem c7_counterexample :
    (get_current_question_set exDB7).1.questionsInCurrentSet = 20 ∧
    exDB7.questions.length = 2 ∧ ¬((20 : Nat) ≤ 2) := by
  refine ⟨?_, rfl, by omega⟩
  have h1 : (activeRows exDB7).countP (fun r => qualifies exDB7 r) =
      (activeRows exDB7).length := by
    rw [show activeRows exDB7 = [(1, ⟨3, 3, 1, 0, true⟩)] from rfl]
    norm_num [qualifies, get_rolling_success_rate, recentAttempts,
      exDB7, RECENT_ATTEMPTS_WINDOW, List.countP_cons]
  simp only [get_current_question_set]
  rw [if_pos h1, if_pos (by decide : exDB7.maxUnlockedChunk < max_available_chunk exDB7)]
  rfl

/-! ## Selector lemmas -/

/-- `random.choice` on a non-empty list returns some member. -/
theorem pick_mem (l : List QRow) (i : Nat) (h : l ≠ []) :
    ∃ q ∈ l, pick l i = some q := by
  have hlen : 0 < l.length := List.length_pos.mpr h
  have hlt : i % l.length < l.length := Nat.mod_lt _ hlen
  exact ⟨l.get ⟨i % l.length, hlt⟩, List.get_mem l _ hlt,
    by simp [pick, List.getElem?_eq_getElem hlt]⟩

/-- `random.choices` with a positive weight total returns some member. -/
theorem choices_mem (l : List QRow) (i : Nat) (h : l ≠ [])
    (hpos : ¬ (l.map (fun q => q.weight)).sum ≤ 0) :
    ∃ q ∈ l, choicesWeighted l i = some q := by
  have hlen : 0 < l.length := List.length_pos.mpr h
  have hlt : i % l.length < l.length := Nat.mod_lt _ hlen
  exact ⟨l.get ⟨i % l.length, hlt⟩, List.get_mem l _ hlt,
    by simp [choicesWeighted, if_neg hpos, List.getElem?_eq_getElem hlt]⟩

/-- The shared body of the two bucket selectors returns a member of any
non-empty bucket whose weights are non-negative. -/
theorem selectBody_mem (l : List QRow) (i : Nat)
    (hw : ∀ q ∈ l, 0 ≤ q.weight) (hne : l ≠ []) :
    ∃ q ∈ l, (if l.isEmpty then none
      else if (l.map (fun q => q.weight)).sum = 0 then pick l i
      else choicesWeighted l i) = some q := by
  have hemp : ¬ (l.isEmpty = true) := by simpa [List.isEmpty_iff] using hne
  rw [if_neg hemp]
  by_cases hs : (l.map (fun q => q.weight)).sum = 0
  · rw [if_pos hs]
    exact pick_mem l i hne
  · rw [if_neg hs]
    have h0 : 0 ≤ (l.map (fun q => q.weight)).sum := by
      refine List.sum_nonneg ?_
      intro x hx
      obtain ⟨q, hq, rfl⟩ := List.mem_map.mp hx
      exact hw q hq
    exact choices_mem l i hne (by intro hle; exact hs (le_antisymm hle h0))

/-- Any value the bucket-selector body returns is a member of the
bucket. -/
theorem selectBody_sub (l : List QRow) (i : Nat) (q : QRow) :
    (if l.isEmpty then none
      else if (l.map (fun q => q.weight)).sum = 0 then pick l i
      else choicesWeighted l i) = some q → q ∈ l := by
  intro h
  by_cases hemp : l.isEmpty
  · rw [if_pos hemp] at h
    exact absurd h (by simp)
  · rw [if_neg hemp] at h
    by_cases hs : (l.map (fun q => q.weight)).sum = 0
    · rw [if_pos hs] at h
      exact List.getElem?_mem h
    · rw [if_neg hs] at h
      unfold choicesWeighted at h
      by_cases hle : (l.map (fun q => q.weight)).sum ≤ 0
      · rw [if_pos hle] at h
        exact absurd h (by simp)
      · rw [if_neg hle] at h
        exact List.getElem?_mem h

/-- `get_unmastered_question` returns only live-unmastered members of
the available rows. -/
theorem get_unmastered_sub (db : DB) (avail : List QRow) (i : Nat) (q : QRow) :
    get_unmastered_question db avail i = some q →
      q ∈ avail.filter (fun q => !(is_question_mastered db q.id)) :=
  selectBody_sub (avail.filter (fun q => !(is_question_mastered db q.id))) i q

/-- `get_mastered_question` returns only live-mastered members of the
available rows. -/
theorem get_mastered_sub (db : DB) (avail : List QRow) (i : Nat) (q : QRow) :
    get_mastered_question db avail i = some q →
      q ∈ avail.filter (fun q => is_question_mastered db q.id) :=
  selectBody_sub (avail.filter (fun q => is_question_mastered db q.id)) i q

/-- When the unmastered bucket is empty, every available row sits in
the mastered bucket. -/
theorem buckets_cover (db : DB) (avail : List QRow) (hne : avail ≠ [])
    (hu : avail.filter (fun q => !(is_question_mastered db q.id)) = []) :
    avail.filter (fun q => is_question_mastered db q.id) ≠ [] := by
  obtain ⟨a, ha⟩ := List.exists_mem_of_ne_nil avail hne
  intro hm
  have h1 := List.filter_eq_nil_iff.mp hu a ha
  have h2 := List.filter_eq_nil_iff.mp hm a ha
  simp at h1 h2
  rw [h1] at h2
  simp at h2

/-- When the mastered bucket is empty, every available row sits in the
unmastered bucket. -/
theorem buckets_cover_rev (db : DB) (avail : List QRow) (hne : avail ≠ [])
    (hm : avail.filter (fun q => is_question_mastered db q.id) = []) :
    avail.filter (fun q => !(is_question_mastered db q.id)) ≠ [] := by
  obtain ⟨a, ha⟩ := List.exists_mem_of_ne_nil avail hne
  intro hu
  have h1 := List.filter_eq_nil_iff.mp hu a ha
  have h2 := List.filter_eq_nil_iff.mp hm a ha
  simp at h1 h2
  rw [h1] at h2
  simp at h2

/-- The ratchet check never touches the stats table. -/
theorem gcqs_stats (db : DB) : (get_current_question_set db).1.stats = db.stats := by
  simp only [get_current_question_set]
  split_ifs <;> rfl

/-- Every selection-pool row carries the weight of some stats row. -/
theorem selectorPool_weight_nonneg (db : DB)
    (hw : ∀ p ∈ db.stats, 0 ≤ p.2.weight) :
    ∀ q ∈ selectorPool db, 0 ≤ q.weight := by
  intro q hq
  unfold selectorPool at hq
  rw [List.mem_flatMap] at hq
  obtain ⟨qq, hqq, hq⟩ := hq
  rw [List.mem_map] at hq
  obtain ⟨p, hp, rfl⟩ := hq
  exact hw p (List.mem_of_mem_filter hp)

/-- The unmastered bucket selector succeeds on a non-empty bucket with
non-negative weights. -/
theorem get_unmastered_mem (db : DB) (avail : List QRow) (i : Nat)
    (hw : ∀ q ∈ avail, 0 ≤ q.weight)
    (hne : avail.filter (fun q => !(is_question_mastered db q.id)) ≠ []) :
    ∃ q ∈ avail.filter (fun q => !(is_question_mastered db q.id)),
      get_unmastered_question db avail i = some q := by
  refine selectBody_mem _ i ?_ hne
  intro q hq
  exact hw q (List.mem_of_mem_filter hq)

/-- The mastered bucket selector succeeds on a non-empty bucket with
non-negative weights. -/
theorem get_mastered_mem (db : DB) (avail : List QRow) (i : Nat)
    (hw : ∀ q ∈ avail, 0 ≤ q.weight)
    (hne : avail.filter (fun q => is_question_mastered db q.id) ≠ []) :
    ∃ q ∈ avail.filter (fun q => is_question_mastered db q.id),
      get_mastered_question db avail i = some q := by
  refine selectBody_mem _ i ?_ hne
  intro q hq
  exact hw q (List.mem_of_mem_filter hq)

/-- Any answer of the 70/30 core comes from the available rows. -/
theorem selector_core_mem (db1 : DB) (avail : List QRow) (r : ℚ) (iU iM : Nat)
    (q : QRow) :
    (if avail.isEmpty then (db1, (none : Option QRow))
     else if r < 7/10 then
       match get_unmastered_question db1 avail iU with
       | some s => (db1, some s)
       | none => (db1, get_mastered_question db1 avail iM)
     else
       match get_mastered_question db1 avail iM with
       | some s => (db1, some s)
       | none => (db1, get_unmastered_question db1 avail iU)).2 = some q →
    q ∈ avail := by
  intro h
  by_cases hemp : avail.isEmpty
  · rw [if_pos hemp] at h
    exact absurd h (by simp)
  · rw [if_neg hemp] at h
    by_cases hr : r < 7/10
    · rw [if_pos hr] at h
      cases hu : get_unmastered_question db1 avail iU with
      | some s =>
        rw [hu] at h
        simp at h
        subst h
        exact List.mem_of_mem_filter (get_unmastered_sub db1 avail iU s hu)
      | none =>
        rw [hu] at h
        simp at h
        exact List.mem_of_mem_filter (get_mastered_sub db1 avail iM q h)
    · rw [if_neg hr] at h
      cases hm : get_mastered_question db1 avail iM with
      | some s =>
        rw [hm] at h
        simp at h
        subst h
        exact List.mem_of_mem_filter (get_mastered_sub db1 avail iM s hm)
      | none =>
        rw [hm] at h
        simp at h
        exact List.mem_of_mem_filter (get_unmastered_sub db1 avail iU q h)

/-- The 70/30 core succeeds on any non-empty available list with
non-negative weights: the preferred bucket falls back to the other. -/
theorem selector_core_total (db1 : DB) (avail : List QRow) (r : ℚ) (iU iM : Nat)
    (hw : ∀ q ∈ avail, 0 ≤ q.weight) (hne : avail ≠ []) :
    ((if avail.isEmpty then (db1, (none : Option QRow))
      else if r < 7/10 then
        match get_unmastered_question db1 avail iU with
        | some s => (db1, some s)
        | none => (db1, get_mastered_question db1 avail iM)
      else
        match get_mastered_question db1 avail iM with
        | some s => (db1, some s)
        | none => (db1, get_unmastered_question db1 avail iU)).2).isSome = true := by
  have hemp : ¬ (avail.isEmpty = true) := by simpa [List.isEmpty_iff] using hne
  rw [if_neg hemp]
  by_cases hr : r < 7/10
  · rw [if_pos hr]
    cases hu : get_unmastered_question db1 avail iU with
    | some s => simp
    | none =>
      have hufil : avail.filter (fun q => !(is_question_mastered db1 q.id)) = [] := by
        by_contra hne2
        obtain ⟨q, hq, heq⟩ := get_unmastered_mem db1 avail iU hw hne2
        rw [hu] at heq
        exact absurd heq (by simp)
      obtain ⟨q, hq, heq⟩ :=
        get_mastered_mem db1 avail iM hw (buckets_cover db1 avail hne hufil)
      simp [heq]
  · rw [if_neg hr]
    cases hm : get_mastered_question db1 avail iM with
    | some s => simp
    | none =>
      have hmfil : avail.filter (fun q => is_question_mastered db1 q.id) = [] := by
        by_contra hne2
        obtain ⟨q, hq, heq⟩ := get_mastered_mem db1 avail iM hw hne2
        rw [hm] at heq
        exact absurd heq (by simp)
      obtain ⟨q, hq, heq⟩ :=
        get_unmastered_mem db1 avail iU hw (buckets_cover_rev db1 avail hne hmfil)
      simp [heq]

/-! ## Selector claims -/

/-- A store for the zero-weight fallback: question 1 unmastered,
question 2 mastered by five correct attempts. -/
def exDB6 : DB :=
  { questions := [⟨1, 1⟩, ⟨2, 1⟩],
    stats := [(1, ⟨0, 0, 0, 0, false⟩), (2, ⟨5, 5, 1, 0, true⟩)],
    attempts := [(2, true), (2, true), (2, true), (2, true), (2, true)],
    maxUnlockedChunk := 1, questionsInCurrentSet := 10 }

/-- The available rows used with `exDB6`, all carrying weight 0. -/
def exRows6 : List QRow := [⟨1, 0⟩, ⟨2, 0⟩]

/-- Claim C6: when every candidate of the chosen bucket has weight
exactly 0, the bucket selector does not fail: it takes the
uniform-random fallback branch and returns some member of the bucket. -/
theorem c6_zero_weight_fallback (db : DB) (avail : List QRow) (i : Nat) :
    (avail.filter (fun q => !(is_question_mastered db q.id)) ≠ [] →
      (∀ q ∈ avail.filter (fun q => !(is_question_mastered db q.id)), q.weight = 0) →
      get_unmastered_question db avail i =
        pick (avail.filter (fun q => !(is_question_mastered db q.id))) i ∧
      ∃ q ∈ avail.filter (fun q => !(is_question_mastered db q.id)),
        get_unmastered_question db avail i = some q) ∧
    (avail.filter (fun q => is_question_mastered db q.id) ≠ [] →
      (∀ q ∈ avail.filter (fun q => is_question_mastered db q.id), q.weight = 0) →
      get_mastered_question db avail i =
        pick (avail.filter (fun q => is_question_mastered db q.id)) i ∧
      ∃ q ∈ avail.filter (fun q => is_question_mastered db q.id),
        get_mastered_question db avail i = some q) := by
  constructor
  · intro hne hzero
    have hemp : ¬ ((avail.filter (fun q => !(is_question_mastered db q.id))).isEmpty = true) := by
      simpa [List.isEmpty_iff] using hne
    have hsum : ((avail.filter (fun q => !(is_question_mastered db q.id))).map
        (fun q => q.weight)).sum = 0 := by
      refine List.sum_eq_zero ?_
      intro x hx
      obtain ⟨q, hq, rfl⟩ := List.mem_map.mp hx
      exact hzero q hq
    have heq : get_unmastered_question db avail i =
        pick (avail.filter (fun q => !(is_question_mastered db q.id))) i := by
      simp only [get_unmastered_question]
      rw [if_neg hemp, if_pos hsum]
    exact ⟨heq, by rw [heq]; exact pick_mem _ i hne⟩
  · intro hne hzero
    have hemp : ¬ ((avail.filter (fun q => is_question_mastered db q.id)).isEmpty = true) := by
      simpa [List.isEmpty_iff] using hne
    have hsum : ((avail.filter (fun q => is_question_mastered db q.id)).map
        (fun q => q.weight)).sum = 0 := by
      refine List.sum_eq_zero ?_
      intro x hx
      obtain ⟨q, hq, rfl⟩ := List.mem_map.mp hx
      exact hzero q hq
    have heq : get_mastered_question db avail i =
        pick (avail.filter (fun q => is_question_mastered db q.id)) i := by
      simp only [get_mastered_question]
      rw [if_neg hemp, if_pos hsum]
    exact ⟨heq, by rw [heq]; exact pick_mem _ i hne⟩

/-- Witness for C6 at `exDB6`: both buckets are non-empty with all-zero
weights and both selectors return a member. -/
theorem c6_zero_weight_witness :
    (∃ q ∈ exRows6.filter (fun q => !(is_question_mastered exDB6 q.id)),
       get_unmastered_question exDB6 exRows6 0 = some q) ∧
    (∃ q ∈ exRows6.filter (fun q => is_question_mastered exDB6 q.id),
       get_mastered_question exDB6 exRows6 0 = some q) := by
  have hm1 : is_question_mastered exDB6 1 = false := rfl
  have hm2 : is_question_mastered exDB6 2 = true := by
    norm_num [is_question_mastered, get_rolling_success_rate, recentAttempts,
      exDB6, RECENT_ATTEMPTS_WINDOW]
  have hf1 : exRows6.filter (fun q => !(is_question_mastered exDB6 q.id)) =
      [⟨1, 0⟩] := by
    simp [exRows6, List.filter, hm1, hm2]
  have hf2 : exRows6.filter (fun q => is_question_mastered exDB6 q.id) =
      [⟨2, 0⟩] := by
    simp [exRows6, List.filter, hm1, hm2]
  obtain ⟨h1, h2⟩ := c6_zero_weight_fallback exDB6 exRows6 0
  refine ⟨(h1 ?_ ?_).2, (h2 ?_ ?_).2⟩
  · rw [hf1]
    simp
  · rw [hf1]
    intro q hq
    simp at hq
    rw [hq]
  · rw [hf2]
    simp
  · rw [hf2]
    intro q hq
    simp at hq
    rw [hq]

/-- Claim C4 (amended): the Selector never returns the excluded id —
the exclusion filter is applied unconditionally — and it returns a
member of the in-scope pool whenever at least one non-excluded
candidate exists; a pool consisting solely of the excluded id makes it
fail. -/
theorem c4_selector_excludes (db : DB) (e : Nat) (r : ℚ) (iU iM : Nat)
    (hw : ∀ p ∈ db.stats, 0 ≤ p.2.weight) :
    (∀ q, (get_weighted_question db (some e) r iU iM).2 = some q →
       q ∈ selectorPool (get_current_question_set db).1 ∧ q.id ≠ e) ∧
    ((selectorPool (get_current_question_set db).1).filter (fun q => q.id != e) ≠ [] →
       ((get_weighted_question db (some e) r iU iM).2).isSome = true) := by
  have hw1 : ∀ q ∈ (selectorPool (get_current_question_set db).1).filter
      (fun q => q.id != e), 0 ≤ q.weight := by
    intro q hq
    refine selectorPool_weight_nonneg _ ?_ q (List.mem_of_mem_filter hq)
    rw [gcqs_stats]
    exact hw
  constructor
  · intro q hq
    have hmem : q ∈ (selectorPool (get_current_question_set db).1).filter
        (fun q => q.id != e) :=
      selector_core_mem (get_current_question_set db).1
        ((selectorPool (get_current_question_set db).1).filter (fun q => q.id != e))
        r iU iM q hq
    rw [List.mem_filter] at hmem
    exact ⟨hmem.1, by simpa using hmem.2⟩
  · intro hne
    exact selector_core_total (get_current_question_set db).1
      ((selectorPool (get_current_question_set db).1).filter (fun q => q.id != e))
      r iU iM hw1 hne

/-- A two-question store for the C4 witness. -/
def exDB4 : DB :=
  { questions := [⟨1, 1⟩, ⟨2, 1⟩],
    stats := [(1, ⟨0, 0, 0, 25, false⟩), (2, ⟨0, 0, 0, 25, false⟩)],
    attempts := [], maxUnlockedChunk := 1, questionsInCurrentSet := 10 }

/-- Witness for C4 at `exDB4`: with two candidates and id 1 excluded,
the selector succeeds and never answers the excluded id. -/
theorem c4_selector_witness :
    ((get_weighted_question exDB4 (some 1) 0 0 0).2).isSome = true ∧
    (∀ q, (get_weighted_question exDB4 (some 1) 0 0 0).2 = some q → q.id ≠ 1) := by
  have hw : ∀ p ∈ exDB4.stats, 0 ≤ p.2.weight := by
    intro p hp
    simp [exDB4] at hp
    rcases hp with rfl | rfl <;> norm_num
  obtain ⟨hmem, htot⟩ := c4_selector_excludes exDB4 1 0 0 0 hw
  exact ⟨htot (by decide), fun q hq => (hmem q hq).2⟩

/-- A one-question store (id 9) for the C4 counterexample. -/
def exDB4c : DB :=
  { questions := [⟨9, 1⟩], stats := [(9, ⟨0, 0, 0, 25, false⟩)],
    attempts := [], maxUnlockedChunk := 1, questionsInCurrentSet := 10 }

/-- Claim C4 as stated is refuted: the pool of `exDB4c` is non-empty,
yet with its only member excluded the Selector returns `none` instead
of a pool member. -/
theorem c4_counterexample :
    selectorPool (get_current_question_set exDB4c).1 ≠ [] ∧
    (get_weighted_question exDB4c (some 9) 0 0 0).2 = none := by
  exact ⟨by decide, rfl⟩

/-- A one-question store (id 7) for claim C5. -/
def exDB5 : DB :=
  { questions := [⟨7, 1⟩], stats := [(7, ⟨0, 0, 0, 25, false⟩)],
    attempts := [], maxUnlockedChunk := 1, questionsInCurrentSet := 10 }

/-- Claim C5 as stated is refuted: the pool of `exDB5` is exactly the
excluded question 7, and the Selector returns `none` rather than
returning that item anyway. -/
theorem c5_counterexample :
    selectorPool (get_current_question_set exDB5).1 = [⟨7, 25⟩] ∧
    (get_weighted_question exDB5 (some 7) 0 0 0).2 = none := by
  exact ⟨rfl, rfl⟩

/-- Claim C5 (amended): the exclusion filter of `get_weighted_question`
is unconditional, so whenever every pool row carries the excluded id —
in particular for a pool of size 1 equal to the excluded id — the pool
empties and the Selector fails with `none` instead of returning the
item. -/
theorem c5_single_excluded (db : DB) (e : Nat) (r : ℚ) (iU iM : Nat)
    (hall : ∀ q ∈ selectorPool (get_current_question_set db).1, q.id = e) :
    (get_weighted_question db (some e) r iU iM).2 = none := by
  have hfil : (selectorPool (get_current_question_set db).1).filter
      (fun q => q.id != e) = [] := by
    rw [List.filter_eq_nil_iff]
    intro q hq
    simp [hall q hq]
  show ((if ((selectorPool (get_current_question_set db).1).filter
        (fun q => q.id != e)).isEmpty
      then ((get_current_question_set db).1, (none : Option QRow))
      else if r < 7/10 then
        match get_unmastered_question (get_current_question_set db).1
          ((selectorPool (get_current_question_set db).1).filter (fun q => q.id != e)) iU with
        | some s => ((get_current_question_set db).1, some s)
        | none => ((get_current_question_set db).1,
            get_mastered_question (get_current_question_set db).1
              ((selectorPool (get_current_question_set db).1).filter (fun q => q.id != e)) iM)
      else
        match get_mastered_question (get_current_question_set db).1
          ((selectorPool (get_current_question_set db).1).filter (fun q => q.id != e)) iM with
        | some s => ((get_current_question_set db).1, some s)
        | none => ((get_current_question_set db).1,
            get_unmastered_question (get_current_question_set db).1
              ((selectorPool (get_current_question_set db).1).filter (fun q => q.id != e)) iU)).2
      = none)
  rw [hfil]
  rfl

/-- Witness for C5 at `exDB5`: the pool is exactly the excluded
question 7 and the selector yields `none`. -/
theorem c5_single_excluded_witness :
    (get_weighted_question exDB5 (some 7) (1/2) 3 4).2 = none :=
  c5_single_excluded exDB5 7 (1/2) 3 4 (by decide)

end MexicoQuiz
